import Mathlib

/-!
# Verification of the `jsonit` JSON response envelope library

Shallow embedding of the response-shaping logic of `jsonit` (files
`jsonit/http.py`, `jsonit/decorators.py`, `jsonit/middleware.py`) and proofs
about it.  Python dictionaries are modelled as insertion-ordered association
lists, so that key presence, key order and value updates follow CPython's
`dict` semantics (updating an existing key keeps its position; a new key is
appended).
-/

namespace jsonit

/-- A JSON-serializable Python value.  The extra constructor `junk` stands for
a Python object that the JSON serializer cannot handle (it carries the type
name that `json.dumps` would report in its `TypeError`). -/
inductive JValue where
  | null : JValue
  | bool : Bool → JValue
  | str : String → JValue
  | arr : List JValue → JValue
  | obj : List (String × JValue) → JValue
  | junk : String → JValue

/-- A Python dict with string keys, in insertion order. -/
abbrev Envelope := List (String × JValue)

/-- Dictionary lookup (`d[k]` / `d.get(k)`). -/
def alookup {α : Type} (l : List (String × α)) (k : String) : Option α :=
  match l with
  | [] => none
  | p :: ps => if p.1 = k then some p.2 else alookup ps k

/-- Dictionary assignment `d[k] = v`: update in place if the key exists
(keeping its position, as CPython does), otherwise append at the end. -/
def aset {α : Type} (l : List (String × α)) (k : String) (v : α) :
    List (String × α) :=
  match l with
  | [] => [(k, v)]
  | p :: ps => if p.1 = k then (k, v) :: ps else p :: aset ps k v

mutual

/-- First non-serializable value inside a `JValue`, if any (its tag). -/
def JValue.firstJunk : JValue → Option String
  | .null => none
  | .bool _ => none
  | .str _ => none
  | .junk t => some t
  | .arr xs => firstJunkList xs
  | .obj fs => firstJunkObj fs

/-- First non-serializable value inside a JSON array. -/
def firstJunkList : List JValue → Option String
  | [] => none
  | x :: xs =>
    match JValue.firstJunk x with
    | some t => some t
    | none => firstJunkList xs

/-- First non-serializable value inside a JSON object. -/
def firstJunkObj : List (String × JValue) → Option String
  | [] => none
  | p :: ps =>
    match JValue.firstJunk p.2 with
    | some t => some t
    | none => firstJunkObj ps

end

/-- Modelled from the spec: the debug-mode gating of the `exception` field
performed during serialization.  The serializer `jsonit.encoder.encode` is not
among the provided source files; per the spec's error-handling section, "when
the host application's debug flag is off, the `exception` field's string
content is replaced by an opaque boolean/marker" (and the module docstring of
`jsonit/http.py`: "If the project's `DEBUG` setting is `False`, exception will
just be set to `True`"). -/
def gateException (debug : Bool) (content : Envelope) : Envelope :=
  if debug then content
  else content.map (fun p => if p.1 = "exception" then (p.1, .bool true) else p)

/-- Modelled from the spec: `jsonit.encoder.encode` (file `jsonit/encoder.py`
is not among the provided source files).  Serialization fails — as
`json.dumps` does, raising `TypeError` — exactly when the content contains a
non-serializable value; otherwise it emits the envelope, with the debug-mode
gating of the `exception` field described in the spec.  We keep the result as
a structured envelope rather than a rendered byte string; rendering is
deterministic, so all key-presence and value facts below are facts about the
emitted JSON object. -/
def encode (debug : Bool) (content : Envelope) : Except String Envelope :=
  match firstJunkObj content with
  | some t => .error ("Object of type " ++ t ++ " is not JSON serializable")
  | none => .ok (gateException debug content)

/-- A `django.contrib.messages` flash message, as the encoder emits it:
a `class` string (the tags) and a `message` string. -/
structure Message where
  tags : String
  message : String

/-- The JSON shape of one flash message (`{'class': ..., 'message': ...}`). -/
def msgToJson (m : Message) : JValue :=
  .obj [("class", .str m.tags), ("message", .str m.message)]

/-- A Python exception value, as far as `build_json` inspects it: an optional
`message` attribute (Python-2 style; absent on modern exceptions) and its
`str()` form. -/
structure Exc where
  message : Option String
  text : String

/-- The exception string computed by `JSONResponse.build_json`: the
exception's `message` attribute when present, otherwise
`'%s: %s' % (_('Internal error'), exception)` (the lazy translation is
modelled as the literal English string). -/
def excMessage (e : Exc) : String :=
  match e.message with
  | some m => m
  | none => "Internal error: " ++ e.text

/-- The parts of a Django `HttpRequest` the library touches: the headers, the
absolute-URI resolver, and the session-backed pending flash messages.
`drains` counts how many times the message storage has been consumed, to make
the drain-once property expressible. -/
structure Request where
  headers : List (String × String)
  build_absolute_uri : String → String
  pendingMessages : List Message
  drains : Nat

/-- The instance state of a `JSONResponse` after `__init__` has normalized its
arguments (`details or {}`, `extra_context or {}`, redirect already resolved
through `request.build_absolute_uri`). -/
structure JSONResponse where
  request : Request
  success : Bool
  details : Envelope
  extra_context : Envelope
  redirect : Option String

/-- Python truthiness of the optional redirect string (`None` and `''` are
falsy). -/
def redirectTruthy (r : Option String) : Bool :=
  match r with
  | some s => s ≠ ""
  | none => false

/-- `JSONResponse.get_messages`: consume and return the user's messages,
unless this is a successful redirection (in which case return `[]` without
touching the storage). -/
def get_messages (st : JSONResponse) : List Message × JSONResponse :=
  if st.success && redirectTruthy st.redirect then ([], st)
  else (st.request.pendingMessages,
        { st with request := { st.request with pendingMessages := [],
                                               drains := st.request.drains + 1 } })

/-- `JSONResponse.get_redirect`: the redirect URL, as long as `success` is
true; `None` otherwise. -/
def get_redirect (st : JSONResponse) : Option String :=
  if st.success then st.redirect else none

/-- The content dict built by `build_json` on the exception branch: `success`
forced to `False`, `details` emptied, `messages` left at its initial `[]`
(the key is *not* removed), the derived exception string added, and
`extra_context` merged when non-empty. -/
def excContent (st : JSONResponse) (e : Exc) : Envelope :=
  [("success", .bool false), ("details", .obj []), ("messages", .arr []),
   ("exception", .str (excMessage e))]
  ++ (if st.extra_context.isEmpty then [] else
      [("extra_context", .obj st.extra_context)])

/-- The content dict built by `build_json` on the non-exception branch, given
the messages returned by `get_messages`: the `redirect` key is added only when
`get_redirect` returns a truthy value (`if redirect:`), and `extra_context` is
merged when non-empty. -/
def mainContent (st : JSONResponse) (msgs : List Message) : Envelope :=
  [("success", .bool st.success), ("details", .obj st.details),
   ("messages", .arr (msgs.map msgToJson))]
  ++ (match get_redirect st with
      | some r => if r = "" then [] else [("redirect", .str r)]
      | none => [])
  ++ (if st.extra_context.isEmpty then [] else
      [("extra_context", .obj st.extra_context)])

/-- `JSONResponse.build_json` restricted to a non-`None` `exception` argument:
build the exception content and serialize it; a serialization failure here is
re-raised (`if exception is not None: raise`), modelled as `Except.error`. -/
def build_json_exc (st : JSONResponse) (debug : Bool) (e : Exc) :
    Except String (Envelope × JSONResponse) :=
  match encode debug (excContent st e) with
  | .ok env => .ok (env, st)
  | .error m => .error m

/-- `JSONResponse.build_json`.  On the non-exception branch it drains the
messages, builds the content and serializes it; if serialization raises, the
Python code calls `self.build_json(e)` with the serialization error — a call
whose `exception` argument is not `None`, hence exactly `build_json_exc` (the
bounded recursion of the source is unfolded here).  The serialization error
`e` is a `TypeError`, which has no `message` attribute, so its derived string
is the `Internal error` fallback. -/
def build_json (st : JSONResponse) (debug : Bool) :
    Option Exc → Except String (Envelope × JSONResponse)
  | some e => build_json_exc st debug e
  | none =>
    let pair := get_messages st
    match encode debug (mainContent st pair.1) with
    | .ok env => .ok (env, pair.2)
    | .error m => build_json_exc pair.2 debug ⟨none, m⟩

/-- The arguments of `JSONResponse.__init__` (after `request`). -/
structure BuildArgs where
  request : Request
  details : Option Envelope
  success : Bool
  exception : Option Exc
  redirect : Option String
  extra_context : Option Envelope

/-- The argument normalization performed by `JSONResponse.__init__`:
`details or {}`, `extra_context or {}`, and
`redirect = request.build_absolute_uri(redirect)` when a redirect was
supplied. -/
def initState (a : BuildArgs) : JSONResponse :=
  { request := a.request
    success := a.success
    details := a.details.getD []
    extra_context := a.extra_context.getD []
    redirect := a.redirect.map a.request.build_absolute_uri }

/-- Constructing a `JSONResponse`: normalize the arguments and build the JSON
content.  The result is the emitted envelope together with the final builder
state (which records the message-storage consumption). -/
def jsonResponse (debug : Bool) (a : BuildArgs) :
    Except String (Envelope × JSONResponse) :=
  build_json (initState a) debug a.exception

/-- A Django form, as far as `JSONFormResponse.get_form_errors` inspects it:
its `errors` dictionary (field name to list of error strings, in insertion
order) and the per-field HTML element id resolution `form[field].auto_id`. -/
structure Form where
  errors : List (String × List String)
  auto_id : String → String

/-- The field-to-identifier resolution inside the collector's loop: a
non-`__all__` field is replaced by `form[field].auto_id`; the `__all__`
sentinel is kept as is. -/
def resolveField (form : Form) (field : String) : String :=
  if field ≠ "__all__" then form.auto_id field else field

/-- `form_errors.setdefault(field, []).extend(errors)` on the nested
`form_errors` dictionary.  The middle branch is unreachable in any run of this
library (the values stored under resolved ids are always lists); in Python a
foreign non-list value there would raise, and the theorems below only apply to
states this library can produce. -/
def extendFormErrors (fe : List (String × JValue)) (field : String)
    (errors : List String) : List (String × JValue) :=
  match alookup fe field with
  | some (JValue.arr xs) => aset fe field (.arr (xs ++ errors.map .str))
  | some _ => fe
  | none => aset fe field (.arr (errors.map .str))

/-- The body of the `if field:` block:
`self.details.setdefault('form_errors', {})` followed by the per-field
`setdefault`/`extend`.  The middle branch is unreachable under the theorems'
hypothesis that `details` carries no foreign `form_errors` entry (in Python a
non-dict value there would raise). -/
def applyFieldErrors (details : Envelope) (field : String)
    (errors : List String) : Envelope :=
  match alookup details "form_errors" with
  | some (JValue.obj fe) =>
      aset details "form_errors" (.obj (extendFormErrors fe field errors))
  | some _ => details
  | none =>
      aset details "form_errors" (.obj (extendFormErrors [] field errors))

/-- `JSONFormResponse.get_form_errors`: iterate the forms and their error
dictionaries, set `success` to `False` for every error entry, resolve the
field id, and — when the id is truthy — append the errors into
`details['form_errors']`.  The state threaded through the fold is the
`(success, details)` pair the Python code mutates on `self`. -/
def get_form_errors (forms : List Form) (s : Bool) (d : Envelope) :
    Bool × Envelope :=
  forms.foldl
    (fun acc form =>
      form.errors.foldl
        (fun acc2 fe =>
          let field := resolveField form fe.1
          if field ≠ "" then (false, applyFieldErrors acc2.2 field fe.2)
          else (false, acc2.2))
        acc)
    (s, d)

/-- `JSONFormResponse.build_json`: collect the form errors into the builder's
`success`/`details` state, then delegate to `JSONResponse.build_json`. -/
def form_build_json (forms : List Form) (st : JSONResponse) (debug : Bool)
    (exception : Option Exc) : Except String (Envelope × JSONResponse) :=
  let p := get_form_errors forms st.success st.details
  build_json { st with success := p.1, details := p.2 } debug exception

/-- `jsonit.http.is_ajax`: the request header `x-requested-with` equals the
literal `XMLHttpRequest`. -/
def is_ajax (r : Request) : Bool :=
  alookup r.headers "x-requested-with" == some "XMLHttpRequest"

/-- The possible outcomes of a call to a view wrapped by
`catch_ajax_exceptions`: the handler's own response, a `JSONResponse` built
from a caught exception (carrying the construction result, since building the
response serializes it), or the exception re-raised to the caller. -/
inductive DecoOut (α : Type) where
  | result : α → DecoOut α
  | jsonOut : Except String (Envelope × JSONResponse) → DecoOut α
  | reraised : Exc → DecoOut α

/-- The `JSONResponse(request, exception=e)` call made by the decorator: all
other arguments are left at their defaults (`details=None`, `success=True`,
`redirect=None`, `extra_context=None`). -/
def ajaxExceptionResponse (debug : Bool) (request : Request) (e : Exc) :
    Except String (Envelope × JSONResponse) :=
  jsonResponse debug ⟨request, none, true, some e, none, none⟩

/-- `jsonit.decorators.catch_ajax_exceptions`: run the handler; on an
exception, return a `JSONResponse` for AJAX requests and re-raise
otherwise. -/
def catch_ajax_exceptions {α : Type} (func : Request → Except Exc α)
    (debug : Bool) (request : Request) : DecoOut α :=
  match func request with
  | .ok a => .result a
  | .error e =>
      if is_ajax request then .jsonOut (ajaxExceptionResponse debug request e)
      else .reraised e

/-- The possible outcomes of
`JSONExceptionMiddleware.process_exception(request, exception)`.
`typeError` is the Python `TypeError` raised by calling a constructor without
a required positional argument. -/
inductive MwOut where
  | typeError : MwOut
  | response : Except String (Envelope × JSONResponse) → MwOut
  | passThrough : MwOut

/-- `jsonit.middleware.JSONExceptionMiddleware.process_exception`.  For an
AJAX request the source executes `return JSONResponse(exception=exception)` —
but `JSONResponse.__init__(self, request, ...)` declares `request` as a
required positional parameter, so this call raises
`TypeError: __init__() missing 1 required positional argument: 'request'`
before any envelope is built.  For a non-AJAX request the method falls through
and returns `None`. -/
def process_exception (request : Request) (_e : Exc) : MwOut :=
  if is_ajax request then .typeError else .passThrough

/-! ## Reference definitions for the form-error collector

These definitions restate the collector's intended behaviour declaratively
(per resolved identifier), to be proved equivalent to the stateful nested
loops of `get_form_errors`. -/

/-- The flattened `(resolved id, errors)` entries of the forms, in iteration
order. -/
def flatEntries : List Form → List (String × List String)
  | [] => []
  | form :: fs =>
    form.errors.map (fun fe => (resolveField form fe.1, fe.2)) ++ flatEntries fs

/-- One step of the collector on a flattened entry. -/
def stepEntry (acc : Bool × Envelope) (e : String × List String) :
    Bool × Envelope :=
  if e.1 ≠ "" then (false, applyFieldErrors acc.2 e.1 e.2) else (false, acc.2)

/-- All error strings accumulated for resolved id `k`, in entry order. -/
def refErrors (l : List (String × List String)) (k : String) : List String :=
  l.foldr (fun e acc => if e.1 = k then e.2 ++ acc else acc) []

/-- Whether some entry has resolved id `k`. -/
def hasEntry (l : List (String × List String)) (k : String) : Bool :=
  l.any (fun e => e.1 = k)

/-- The collector's effect on the `form_errors` dictionary alone. -/
def emitFold (fe : List (String × JValue))
    (l : List (String × List String)) : List (String × JValue) :=
  l.foldl
    (fun fe e => if e.1 ≠ "" then extendFormErrors fe e.1 e.2 else fe) fe

/-- Well-formedness of a `form_errors` dictionary: every stored value is a
JSON array (which is all this library ever stores there). -/
def wfSlot (fe : List (String × JValue)) : Prop :=
  ∀ k v, alookup fe k = some v → ∃ xs, v = JValue.arr xs

/-! ## Concrete test fixtures -/

/-- A concrete AJAX request used to instantiate theorems. -/
def testRequest : Request :=
  { headers := [("x-requested-with", "XMLHttpRequest")]
    build_absolute_uri := fun s => "http://testserver" ++ s
    pendingMessages := [⟨"info", "hello"⟩]
    drains := 0 }

/-- A concrete non-AJAX request (no `x-requested-with` header). -/
def plainRequest : Request :=
  { headers := [("accept", "text/html")]
    build_absolute_uri := fun s => "http://testserver" ++ s
    pendingMessages := []
    drains := 0 }

/-- Arguments of an exception-path build (debug mode), for the C1
counterexample. -/
def c1args : BuildArgs := ⟨testRequest, none, true, some ⟨some "boom", "boom"⟩, none, none⟩

/-- The envelope `c1args` produces in debug mode: `messages` and `exception`
are both present. -/
def c1Env : Envelope :=
  [("success", .bool false), ("details", .obj []), ("messages", .arr []),
   ("exception", .str "boom")]

/-- Arguments of an exception-path build with non-trivial `success` and
`details` arguments, for the C2 witness (debug off). -/
def c2args : BuildArgs :=
  ⟨testRequest, some [("k", .str "v")], true, some ⟨none, "boom"⟩, none, none⟩

/-- The envelope `c2args` produces with debug off. -/
def c2Env : Envelope :=
  [("success", .bool false), ("details", .obj []), ("messages", .arr []),
   ("exception", .bool true)]

/-- Arguments of a successful build with no redirect, for the C3
counterexample. -/
def c3args : BuildArgs := ⟨testRequest, none, true, none, none, none⟩

/-- The envelope `c3args` produces in debug mode: no `redirect` key at all. -/
def c3Env : Envelope :=
  [("success", .bool true), ("details", .obj []),
   ("messages", .arr [.obj [("class", .str "info"), ("message", .str "hello")]])]

/-- Arguments of a successful build with a redirect, for the C3 witness. -/
def c3wargs : BuildArgs := ⟨testRequest, none, true, none, some "/next", none⟩

/-- The envelope `c3wargs` produces in debug mode. -/
def c3wEnv : Envelope :=
  [("success", .bool true), ("details", .obj []), ("messages", .arr []),
   ("redirect", .str "http://testserver/next")]

/-- Arguments whose `details` mapping contains a non-serializable value, for
the C4 witness (first serialization fails, the rebuilt envelope succeeds). -/
def c4args : BuildArgs :=
  ⟨testRequest, some [("bad", .junk "object")], true, none, none, none⟩

/-- The serialization error message for `c4args`. -/
def c4msg : String := "Object of type object is not JSON serializable"

/-- Arguments with non-serializable values in both `details` and
`extra_context`, for the C4 witness (second serialization also fails). -/
def c4bargs : BuildArgs :=
  ⟨testRequest, some [("bad", .junk "object")], true, none, none,
   some [("also", .junk "setobj")]⟩

/-- The second serialization error message for `c4bargs`. -/
def c4bmsg : String := "Object of type setobj is not JSON serializable"

/-- Arguments of a successful redirect build with pending messages, for the
C7 witness (messages are suppressed). -/
def c7args : BuildArgs := ⟨testRequest, none, true, none, some "/go", none⟩

/-- The envelope `c7args` produces in debug mode. -/
def c7Env : Envelope :=
  [("success", .bool true), ("details", .obj []), ("messages", .arr []),
   ("redirect", .str "http://testserver/go")]

/-- Arguments of an exception-path build, for the C9 witness (debug off). -/
def c9args : BuildArgs :=
  ⟨testRequest, none, false, some ⟨none, "secret detail"⟩, none, none⟩

/-- The envelope `c9args` produces with debug off: the exception detail is
replaced by the literal boolean `true`. -/
def c9Env : Envelope :=
  [("success", .bool false), ("details", .obj []), ("messages", .arr []),
   ("exception", .bool true)]

/-- Arguments of an exception-path build with a non-empty `extra_context`,
for the C10 witness. -/
def c10args : BuildArgs :=
  ⟨testRequest, some [("d", .str "x")], true, some ⟨some "err", "err"⟩, none,
   some [("page", .str "home")]⟩

/-- The envelope `c10args` produces in debug mode: `extra_context` is merged
in even though the build is an exception path. -/
def c10Env : Envelope :=
  [("success", .bool false), ("details", .obj []), ("messages", .arr []),
   ("exception", .str "err"), ("extra_context", .obj [("page", .str "home")])]

/-- The exception used for the C5 code-bug evidence. -/
def c5exc : Exc := ⟨none, "x"⟩

/-- A handler that always raises, for the C5 code-bug evidence. -/
def c5func : Request → Except Exc Nat := fun _ => .error c5exc

/-- The envelope the decorator produces for `c5exc` on an AJAX request. -/
def c5Env : Envelope :=
  [("success", .bool false), ("details", .obj []), ("messages", .arr []),
   ("exception", .str "Internal error: x")]

/-- An exception mimicking Python 3 `ValueError("x")` (no `message`
attribute), for the C6 witness. -/
def c6exc : Exc := ⟨none, "x"⟩

/-- A handler that always raises `c6exc`, for the C6 witness. -/
def c6func : Request → Except Exc Nat := fun _ => .error c6exc

/-- A form with a form-wide error and a field error, for the C8 witness. -/
def c8form1 : Form :=
  ⟨[("__all__", ["bad combo"]), ("name", ["required"])],
   fun f => if f = "name" then "id_name" else ""⟩

/-- A second form repeating the `name` field and containing a field whose id
resolves to the empty string, for the C8 witness. -/
def c8form2 : Form :=
  ⟨[("name", ["too short"]), ("ghost", ["x"])],
   fun f => if f = "name" then "id_name" else ""⟩

/-- The form list for the C8 witness. -/
def c8forms : List Form := [c8form1, c8form2]

/-- The initial details mapping for the C8 witness. -/
def c8d : Envelope := [("x", .str "y")]

/-! ## Association-list and gating lemmas -/

theorem alookup_append {α : Type} (l₁ l₂ : List (String × α)) (k : String) :
    alookup (l₁ ++ l₂) k = ((alookup l₁ k).orElse (fun _ => alookup l₂ k)) := by
  induction l₁ with
  | nil => simp [alookup]
  | cons p ps ih => by_cases h : p.1 = k <;> simp [alookup, h, ih]

theorem alookup_aset_self {α : Type} (l : List (String × α)) (k : String)
    (v : α) : alookup (aset l k v) k = some v := by
  induction l with
  | nil => simp [aset, alookup]
  | cons p ps ih => by_cases h : p.1 = k <;> simp [aset, alookup, h, ih]

theorem alookup_aset_ne {α : Type} (l : List (String × α)) (k k' : String)
    (v : α) (h : k' ≠ k) : alookup (aset l k v) k' = alookup l k' := by
  induction l with
  | nil => simp [aset, alookup, Ne.symm h]
  | cons p ps ih =>
    by_cases hp : p.1 = k
    · simp [aset, alookup, hp, Ne.symm h]
    · simp [aset, alookup, hp, ih]

theorem aset_aset {α : Type} (l : List (String × α)) (k : String) (v w : α) :
    aset (aset l k v) k w = aset l k w := by
  induction l with
  | nil => simp [aset]
  | cons p ps ih => by_cases h : p.1 = k <;> simp [aset, h, ih]

theorem alookup_gatemap (c : Envelope) (k : String) :
    alookup (c.map
        (fun p => (p.1, if p.1 = "exception" then JValue.bool true else p.2))) k
      = (alookup c k).map
          (fun v => if k = "exception" then JValue.bool true else v) := by
  induction c with
  | nil => simp [alookup]
  | cons p ps ih => by_cases hp : p.1 = k <;> simp [alookup, hp, ih]

theorem gateException_false (c : Envelope) :
    gateException false c =
      c.map (fun p => (p.1, if p.1 = "exception" then JValue.bool true else p.2)) := by
  unfold gateException
  rw [if_neg (by simp)]
  apply List.map_congr_left
  intro p _
  by_cases hp : p.1 = "exception" <;> simp [hp]

theorem alookup_gate_ne (debug : Bool) (c : Envelope) (k : String)
    (h : k ≠ "exception") :
    alookup (gateException debug c) k = alookup c k := by
  cases debug with
  | true => simp [gateException]
  | false =>
    rw [gateException_false, alookup_gatemap]
    simp [h]

theorem alookup_gate_exc (debug : Bool) (c : Envelope) :
    alookup (gateException debug c) "exception" =
      (alookup c "exception").map (fun v => if debug then v else .bool true) := by
  cases debug with
  | true => simp [gateException]
  | false => rw [gateException_false, alookup_gatemap]; simp

/-! ## Characterizing the outcomes of `jsonResponse` -/

theorem get_messages_extra (st : JSONResponse) :
    (get_messages st).2.extra_context = st.extra_context := by
  unfold get_messages; split <;> rfl

theorem excContent_congr (st₁ st₂ : JSONResponse) (e : Exc)
    (h : st₁.extra_context = st₂.extra_context) :
    excContent st₁ e = excContent st₂ e := by
  unfold excContent
  rw [h]

theorem encode_ok (debug : Bool) (c env : Envelope)
    (h : encode debug c = .ok env) : env = gateException debug c := by
  unfold encode at h
  cases hj : firstJunkObj c with
  | some t => simp only [hj] at h; exact absurd h (by simp)
  | none => simp only [hj] at h; simp at h; exact h.symm

theorem build_json_exc_ok (st : JSONResponse) (debug : Bool) (e : Exc)
    (env : Envelope) (st' : JSONResponse)
    (h : build_json_exc st debug e = .ok (env, st')) :
    env = gateException debug (excContent st e) ∧ st' = st := by
  unfold build_json_exc at h
  cases he : encode debug (excContent st e) with
  | ok env' =>
    simp only [he] at h
    simp at h
    exact ⟨by rw [← h.1]; exact encode_ok _ _ _ he, h.2.symm⟩
  | error m => simp only [he] at h; exact absurd h (by simp)

/-- Every successful `jsonResponse` result is one of three shapes: the
exception-path envelope (when an exception was passed), the primary envelope
(no exception, serialization succeeded), or the rebuilt exception-path
envelope for the serialization error (no exception, first serialization
failed). -/
theorem jsonResponse_cases (debug : Bool) (a : BuildArgs) (env : Envelope)
    (st : JSONResponse) (h : jsonResponse debug a = .ok (env, st)) :
    (∃ e, a.exception = some e ∧
      env = gateException debug (excContent (initState a) e) ∧
      st = initState a) ∨
    (a.exception = none ∧
      ((encode debug
          (mainContent (initState a) (get_messages (initState a)).1) =
            .ok env ∧
        env = gateException debug
          (mainContent (initState a) (get_messages (initState a)).1) ∧
        st = (get_messages (initState a)).2) ∨
       (∃ m, encode debug
          (mainContent (initState a) (get_messages (initState a)).1) =
            .error m ∧
        env = gateException debug (excContent (initState a) ⟨none, m⟩) ∧
        st = (get_messages (initState a)).2))) := by
  unfold jsonResponse at h
  cases hx : a.exception with
  | some e =>
    left
    rw [hx] at h
    simp only [build_json] at h
    have h2 := build_json_exc_ok _ _ _ _ _ h
    exact ⟨e, rfl, h2.1, h2.2⟩
  | none =>
    right
    refine ⟨rfl, ?_⟩
    rw [hx] at h
    simp only [build_json] at h
    cases he : encode debug (mainContent (initState a)
        (get_messages (initState a)).1) with
    | ok env' =>
      left
      simp only [he] at h
      simp at h
      exact ⟨by rw [h.1], by rw [← h.1]; exact encode_ok _ _ _ he, h.2.symm⟩
    | error m =>
      right
      simp only [he] at h
      have h2 := build_json_exc_ok _ _ _ _ _ h
      have hce : excContent ((get_messages (initState a)).2) ⟨none, m⟩ =
          excContent (initState a) ⟨none, m⟩ :=
        excContent_congr _ _ _ (get_messages_extra _)
      refine ⟨m, rfl, ?_, h2.2⟩
      rw [h2.1, hce]

/-! ## Key lookups in the two content shapes -/

theorem excContent_lookup_success (st : JSONResponse) (e : Exc) :
    alookup (excContent st e) "success" = some (.bool false) := by
  simp [excContent, alookup]

theorem excContent_lookup_details (st : JSONResponse) (e : Exc) :
    alookup (excContent st e) "details" = some (.obj []) := by
  simp [excContent, alookup]

theorem excContent_lookup_messages (st : JSONResponse) (e : Exc) :
    alookup (excContent st e) "messages" = some (.arr []) := by
  simp [excContent, alookup]

theorem excContent_lookup_exception (st : JSONResponse) (e : Exc) :
    alookup (excContent st e) "exception" = some (.str (excMessage e)) := by
  simp [excContent, alookup]

theorem excContent_lookup_redirect (st : JSONResponse) (e : Exc) :
    alookup (excContent st e) "redirect" = none := by
  by_cases hx : st.extra_context.isEmpty <;> simp [excContent, alookup, hx]

theorem excContent_lookup_extra (st : JSONResponse) (e : Exc)
    (h : ¬ st.extra_context.isEmpty) :
    alookup (excContent st e) "extra_context" = some (.obj st.extra_context) := by
  simp [excContent, alookup, h]

theorem mainContent_lookup_success (st : JSONResponse) (msgs : List Message) :
    alookup (mainContent st msgs) "success" = some (.bool st.success) := by
  simp [mainContent, alookup]

theorem mainContent_lookup_details (st : JSONResponse) (msgs : List Message) :
    alookup (mainContent st msgs) "details" = some (.obj st.details) := by
  simp [mainContent, alookup]

theorem mainContent_lookup_messages (st : JSONResponse) (msgs : List Message) :
    alookup (mainContent st msgs) "messages" =
      some (.arr (msgs.map msgToJson)) := by
  simp [mainContent, alookup]

theorem mainContent_lookup_exception (st : JSONResponse) (msgs : List Message) :
    alookup (mainContent st msgs) "exception" = none := by
  rcases hr : get_redirect st with _ | r
  · by_cases hx : st.extra_context.isEmpty <;>
      simp [mainContent, alookup, hr, hx]
  · by_cases he : r = "" <;> by_cases hx : st.extra_context.isEmpty <;>
      simp [mainContent, alookup, hr, he, hx]

theorem mainContent_lookup_redirect (st : JSONResponse) (msgs : List Message) :
    alookup (mainContent st msgs) "redirect" =
      (match get_redirect st with
       | some r => if r = "" then none else some (.str r)
       | none => none) := by
  rcases hr : get_redirect st with _ | r
  · by_cases hx : st.extra_context.isEmpty <;>
      simp [mainContent, alookup, hr, hx]
  · by_cases he : r = "" <;> by_cases hx : st.extra_context.isEmpty <;>
      simp [mainContent, alookup, hr, he, hx]

theorem mainContent_lookup_extra (st : JSONResponse) (msgs : List Message)
    (h : ¬ st.extra_context.isEmpty) :
    alookup (mainContent st msgs) "extra_context" =
      some (.obj st.extra_context) := by
  rcases hr : get_redirect st with _ | r
  · simp [mainContent, alookup, hr, h]
  · by_cases he : r = "" <;> simp [mainContent, alookup, hr, he, h]

/-! ## Claim C1 -/

/-- C1, counterexample to the claim as stated: an exception-path build emits
*both* the `exception` key and the `messages` key (the latter with value
`[]`); the claim's "exactly one of the two, with `messages` omitted on
exception paths" is false. -/
theorem C1_counterexample :
    jsonResponse true c1args = .ok (c1Env, initState c1args) ∧
    (alookup c1Env "exception").isSome = true ∧
    (alookup c1Env "messages").isSome = true :=
  ⟨rfl, rfl, rfl⟩

/-- C1 (amended): every emitted envelope contains the `messages` key; whenever
the `exception` key is present, `messages` is present with value `[]` (it is
never omitted); and the `exception` key is present exactly when the build was
an exception-path build — an exception argument was passed, or serialization
of the primary envelope failed and the build was rebuilt as an exception path
for the serialization error.  In particular a primary-success envelope never
carries the `exception` key. -/
theorem C1_messages_always_present (debug : Bool) (a : BuildArgs)
    (env : Envelope) (st : JSONResponse)
    (h : jsonResponse debug a = .ok (env, st)) :
    (alookup env "messages").isSome = true ∧
    ((alookup env "exception").isSome = true →
      alookup env "messages" = some (.arr [])) ∧
    ((alookup env "exception").isSome = true ↔
      (a.exception.isSome = true ∨
       ∃ m, encode debug
         (mainContent (initState a) (get_messages (initState a)).1) =
           .error m)) := by
  rcases jsonResponse_cases debug a env st h with
    ⟨e, hsome, henv, _⟩ | ⟨hnone, ⟨henc, henv, _⟩ | ⟨m, hm, henv, _⟩⟩
  · subst henv
    refine ⟨?_, fun _ => ?_, ?_, fun _ => ?_⟩
    · rw [alookup_gate_ne _ _ _ (by decide), excContent_lookup_messages]; rfl
    · rw [alookup_gate_ne _ _ _ (by decide), excContent_lookup_messages]
    · intro _
      exact Or.inl (by rw [hsome]; rfl)
    · rw [alookup_gate_exc, excContent_lookup_exception]; rfl
  · subst henv
    refine ⟨?_, fun hx => ?_, fun hx => ?_, fun hx => ?_⟩
    · rw [alookup_gate_ne _ _ _ (by decide), mainContent_lookup_messages]; rfl
    · rw [alookup_gate_exc, mainContent_lookup_exception] at hx
      simp at hx
    · rw [alookup_gate_exc, mainContent_lookup_exception] at hx
      simp at hx
    · rcases hx with hx | ⟨m, hm⟩
      · rw [hnone] at hx
        simp at hx
      · rw [hm] at henc
        simp at henc
  · subst henv
    refine ⟨?_, fun _ => ?_, ?_, fun _ => ?_⟩
    · rw [alookup_gate_ne _ _ _ (by decide), excContent_lookup_messages]; rfl
    · rw [alookup_gate_ne _ _ _ (by decide), excContent_lookup_messages]
    · intro _
      exact Or.inr ⟨m, hm⟩
    · rw [alookup_gate_exc, excContent_lookup_exception]; rfl

/-! ## Claim C2 -/

/-- C2: whenever the emitted envelope carries the `exception` key, its
`success` value is `false` and its `details` value is the empty mapping, no
matter what `success` flag and `details` mapping the builder was called
with. -/
theorem C2_exception_forces_failure (debug : Bool) (a : BuildArgs)
    (env : Envelope) (st : JSONResponse)
    (h : jsonResponse debug a = .ok (env, st))
    (hx : (alookup env "exception").isSome = true) :
    alookup env "success" = some (.bool false) ∧
    alookup env "details" = some (.obj []) := by
  rcases jsonResponse_cases debug a env st h with
    ⟨e, _, henv, _⟩ | ⟨_, ⟨_, henv, _⟩ | ⟨m, _, henv, _⟩⟩
  · subst henv
    exact ⟨by rw [alookup_gate_ne _ _ _ (by decide), excContent_lookup_success],
           by rw [alookup_gate_ne _ _ _ (by decide), excContent_lookup_details]⟩
  · subst henv
    rw [alookup_gate_exc, mainContent_lookup_exception] at hx
    simp at hx
  · subst henv
    exact ⟨by rw [alookup_gate_ne _ _ _ (by decide), excContent_lookup_success],
           by rw [alookup_gate_ne _ _ _ (by decide), excContent_lookup_details]⟩

/-- C2, witness: a concrete exception-path build with `success=True` and a
non-empty `details` argument still emits `success=false` and empty
`details`. -/
theorem C2_witness :
    jsonResponse false c2args = .ok (c2Env, initState c2args) ∧
    (alookup c2Env "exception").isSome = true ∧
    (alookup c2Env "success" = some (.bool false) ∧
     alookup c2Env "details" = some (.obj [])) :=
  ⟨rfl, rfl, C2_exception_forces_failure false c2args c2Env (initState c2args)
    rfl rfl⟩

/-- C1, witness for the amended claim at a concrete exception-path input. -/
theorem C1_witness :
    jsonResponse true c1args = .ok (c1Env, initState c1args) ∧
    ((alookup c1Env "messages").isSome = true ∧
     ((alookup c1Env "exception").isSome = true →
       alookup c1Env "messages" = some (.arr [])) ∧
     ((alookup c1Env "exception").isSome = true ↔
       (c1args.exception.isSome = true ∨
        ∃ m, encode true
          (mainContent (initState c1args)
            (get_messages (initState c1args)).1) = .error m))) :=
  ⟨rfl, C1_messages_always_present true c1args c1Env (initState c1args) rfl⟩

/-! ## More helper lemmas about the build pipeline -/

theorem encode_ok_of_nojunk (debug : Bool) (c : Envelope)
    (hj : firstJunkObj c = none) :
    encode debug c = .ok (gateException debug c) := by
  simp only [encode, hj]

theorem get_messages_fst (a : BuildArgs)
    (hnz : ∀ r, a.redirect = some r → a.request.build_absolute_uri r ≠ "") :
    (get_messages (initState a)).1 =
      (if a.success && a.redirect.isSome then []
       else a.request.pendingMessages) := by
  unfold get_messages initState redirectTruthy
  rcases hr : a.redirect with _ | r
  · simp
  · have hnz' := hnz r hr
    by_cases hs : a.success <;> simp [hs, hnz']

theorem get_messages_snd_drains (st : JSONResponse) :
    (get_messages st).2.request.drains ≤ st.request.drains + 1 := by
  unfold get_messages
  split <;> simp

/-! ## Claim C3 -/

/-- C3, counterexample to the claim as stated: a successful non-exception
build with no redirect supplied omits the `redirect` key entirely — the key is
not present with value `null` as the claim asserts. -/
theorem C3_counterexample :
    jsonResponse true c3args = .ok (c3Env, (get_messages (initState c3args)).2) ∧
    alookup c3Env "success" = some (.bool true) ∧
    alookup c3Env "exception" = none ∧
    alookup c3Env "redirect" = none :=
  ⟨rfl, rfl, rfl, rfl⟩

/-- C3 (amended): on a non-exception build whose primary envelope serializes,
the `redirect` key is present — holding the resolved absolute redirect URL —
exactly when `success` is true and a redirect was supplied; in every other
case the key is omitted entirely (it is never present with value `null`).
Stated under the realistic assumption that the request's absolute-URI
resolver never returns an empty string. -/
theorem C3_redirect_key (debug : Bool) (a : BuildArgs) (env : Envelope)
    (st : JSONResponse)
    (hx : a.exception = none)
    (hj : firstJunkObj
      (mainContent (initState a) (get_messages (initState a)).1) = none)
    (hnz : ∀ r, a.redirect = some r → a.request.build_absolute_uri r ≠ "")
    (h : jsonResponse debug a = .ok (env, st)) :
    alookup env "redirect" =
      (if a.success then
        a.redirect.map (fun r => JValue.str (a.request.build_absolute_uri r))
      else none) := by
  rcases jsonResponse_cases debug a env st h with
    ⟨e, hsome, _, _⟩ | ⟨_, ⟨_, henv, _⟩ | ⟨m, hm, _, _⟩⟩
  · rw [hx] at hsome; simp at hsome
  · subst henv
    rw [alookup_gate_ne _ _ _ (by decide), mainContent_lookup_redirect]
    unfold get_redirect initState
    rcases hr : a.redirect with _ | r
    · by_cases hs : a.success <;> simp [hs]
    · have hnz' := hnz r hr
      by_cases hs : a.success <;> simp [hs, hnz']
  · rw [encode_ok_of_nojunk _ _ hj] at hm
    simp at hm

/-- C3, witness for the amended claim: success with a supplied redirect emits
the key with the resolved absolute URL. -/
theorem C3_witness :
    jsonResponse true c3wargs = .ok (c3wEnv, initState c3wargs) ∧
    alookup c3wEnv "redirect" = some (.str "http://testserver/next") :=
  ⟨rfl, by
    have h2 := C3_redirect_key true c3wargs c3wEnv (initState c3wargs) rfl rfl
      (fun r hr => by cases hr; decide) rfl
    simpa using h2⟩

/-! ## Claim C4 -/

/-- C4: if serializing the primary envelope fails on a non-exception build,
the builder returns the exception-path envelope for that serialization error,
the pending-messages source having been consumed at most once (the retry path
performs no second drain: the final state is exactly the state after the
single `get_messages` call); and if the rebuilt envelope fails to serialize
too, that error propagates uncaught. -/
theorem C4_serialization_retry (debug : Bool) (a : BuildArgs) (m : String)
    (hx : a.exception = none)
    (hm : encode debug
      (mainContent (initState a) (get_messages (initState a)).1) = .error m) :
    (firstJunkObj (excContent (initState a) ⟨none, m⟩) = none →
      jsonResponse debug a = .ok
        (gateException debug (excContent (initState a) ⟨none, m⟩),
         (get_messages (initState a)).2) ∧
      (get_messages (initState a)).2.request.drains ≤
        (initState a).request.drains + 1) ∧
    (∀ m2, encode debug (excContent (initState a) ⟨none, m⟩) = .error m2 →
      jsonResponse debug a = .error m2) := by
  have hstep : jsonResponse debug a =
      build_json_exc (get_messages (initState a)).2 debug ⟨none, m⟩ := by
    unfold jsonResponse
    rw [hx]
    simp only [build_json]
    simp only [hm]
  have hce : excContent ((get_messages (initState a)).2) ⟨none, m⟩ =
      excContent (initState a) ⟨none, m⟩ :=
    excContent_congr _ _ _ (get_messages_extra _)
  constructor
  · intro hj
    refine ⟨?_, get_messages_snd_drains _⟩
    rw [hstep]
    unfold build_json_exc
    rw [hce]
    simp only [encode_ok_of_nojunk _ _ hj]
  · intro m2 hm2
    rw [hstep]
    unfold build_json_exc
    rw [hce]
    simp only [hm2]

/-- C4, witness: with a non-serializable value in `details` the build returns
the rebuilt exception envelope after a single drain; with a second
non-serializable value in `extra_context` the second failure propagates. -/
theorem C4_witness :
    (encode true (mainContent (initState c4args)
        (get_messages (initState c4args)).1) = .error c4msg ∧
     jsonResponse true c4args = .ok
       (gateException true (excContent (initState c4args) ⟨none, c4msg⟩),
        (get_messages (initState c4args)).2) ∧
     (get_messages (initState c4args)).2.request.drains ≤
       (initState c4args).request.drains + 1) ∧
    (encode true (mainContent (initState c4bargs)
        (get_messages (initState c4bargs)).1) = .error c4msg ∧
     jsonResponse true c4bargs = .error c4bmsg) :=
  ⟨⟨rfl, ((C4_serialization_retry true c4args c4msg rfl rfl).1 rfl).1,
    ((C4_serialization_retry true c4args c4msg rfl rfl).1 rfl).2⟩,
   ⟨rfl, (C4_serialization_retry true c4bargs c4msg rfl rfl).2 c4bmsg rfl⟩⟩

/-! ## Claim C7 -/

/-- C7: on a non-exception build whose primary envelope serializes, the
`messages` value is the drained pending messages — except that when `success`
is true and a redirect was supplied it is the empty list, no matter how many
messages were pending.  Stated under the realistic assumption that the
absolute-URI resolver never returns an empty string. -/
theorem C7_messages_value (debug : Bool) (a : BuildArgs) (env : Envelope)
    (st : JSONResponse)
    (hx : a.exception = none)
    (hj : firstJunkObj
      (mainContent (initState a) (get_messages (initState a)).1) = none)
    (hnz : ∀ r, a.redirect = some r → a.request.build_absolute_uri r ≠ "")
    (h : jsonResponse debug a = .ok (env, st)) :
    alookup env "messages" = some (.arr
      ((if a.success && a.redirect.isSome then []
        else a.request.pendingMessages).map msgToJson)) := by
  rcases jsonResponse_cases debug a env st h with
    ⟨e, hsome, _, _⟩ | ⟨_, ⟨_, henv, _⟩ | ⟨m, hm, _, _⟩⟩
  · rw [hx] at hsome; simp at hsome
  · subst henv
    rw [alookup_gate_ne _ _ _ (by decide), mainContent_lookup_messages,
      get_messages_fst a hnz]
  · rw [encode_ok_of_nojunk _ _ hj] at hm
    simp at hm

/-- C7, witness: a successful redirect build with one pending message emits
`messages = []`. -/
theorem C7_witness :
    jsonResponse true c7args = .ok (c7Env, initState c7args) ∧
    testRequest.pendingMessages ≠ [] ∧
    alookup c7Env "messages" = some (.arr []) :=
  ⟨rfl, by simp [testRequest], by
    have h2 := C7_messages_value true c7args c7Env (initState c7args) rfl rfl
      (fun r hr => by cases hr; decide) rfl
    simpa using h2⟩

/-! ## Claim C9 -/

/-- C9: on every exception-path build, the emitted `exception` value is the
derived detail string when the debug flag is on, and the literal boolean
`true` when it is off. -/
theorem C9_debug_gating (debug : Bool) (a : BuildArgs) (e : Exc)
    (env : Envelope) (st : JSONResponse)
    (hx : a.exception = some e)
    (h : jsonResponse debug a = .ok (env, st)) :
    alookup env "exception" =
      some (if debug then .str (excMessage e) else .bool true) := by
  rcases jsonResponse_cases debug a env st h with
    ⟨e', hsome, henv, _⟩ | ⟨hnone, _⟩
  · rw [hx] at hsome
    injection hsome with he'
    subst he'
    subst henv
    rw [alookup_gate_exc, excContent_lookup_exception]
    cases debug <;> simp
  · rw [hx] at hnone; simp at hnone

/-- C9, witness: with debug off, the exception detail string is replaced by
the literal boolean `true`. -/
theorem C9_witness :
    jsonResponse false c9args = .ok (c9Env, initState c9args) ∧
    alookup c9Env "exception" = some (.bool true) :=
  ⟨rfl, by
    have h2 := C9_debug_gating false c9args ⟨none, "secret detail"⟩ c9Env
      (initState c9args) rfl rfl
    simpa using h2⟩

/-! ## Claim C10 -/

/-- C10: whenever the builder's `extra_context` mapping is non-empty, the
emitted envelope carries it verbatim under the `extra_context` key — on
exception-path builds (where `details` is emptied and `success` forced to
false) just as on normal builds and serialization-retry builds. -/
theorem C10_extra_context_merged (debug : Bool) (a : BuildArgs)
    (ec : Envelope) (env : Envelope) (st : JSONResponse)
    (hec : a.extra_context = some ec) (hne : ec ≠ [])
    (h : jsonResponse debug a = .ok (env, st)) :
    alookup env "extra_context" = some (.obj ec) := by
  have hst : (initState a).extra_context = ec := by simp [initState, hec]
  have hemp : ¬ (initState a).extra_context.isEmpty := by
    rw [hst]
    rcases ec with _ | ⟨x, xs⟩
    · exact absurd rfl hne
    · simp
  rcases jsonResponse_cases debug a env st h with
    ⟨e, _, henv, _⟩ | ⟨_, ⟨_, henv, _⟩ | ⟨m, _, henv, _⟩⟩
  · subst henv
    rw [alookup_gate_ne _ _ _ (by decide),
      excContent_lookup_extra _ _ hemp, hst]
  · subst henv
    rw [alookup_gate_ne _ _ _ (by decide),
      mainContent_lookup_extra _ _ hemp, hst]
  · subst henv
    rw [alookup_gate_ne _ _ _ (by decide),
      excContent_lookup_extra _ _ hemp, hst]

/-- C10, witness: an exception-path build still merges the non-empty
`extra_context` into the envelope. -/
theorem C10_witness :
    jsonResponse true c10args = .ok (c10Env, initState c10args) ∧
    alookup c10Env "extra_context" = some (.obj [("page", .str "home")]) :=
  ⟨rfl, C10_extra_context_merged true c10args [("page", .str "home")] c10Env
    (initState c10args) rfl (by simp) rfl⟩

/-! ## Claim C6 -/

/-- C6: for a handler that raises, the decorator returns the Response
Builder's exception-path output (whose envelope carries the string derived
from the exception, gated by the debug flag) when the request is AJAX, and
re-raises the same exception unchanged otherwise. -/
theorem C6_decorator_behavior {α : Type} (func : Request → Except Exc α)
    (debug : Bool) (request : Request) (e : Exc)
    (hf : func request = .error e) :
    (is_ajax request = true →
      catch_ajax_exceptions func debug request = .jsonOut (.ok
        ([("success", .bool false), ("details", .obj []), ("messages", .arr []),
          ("exception", if debug then .str (excMessage e) else .bool true)],
         initState ⟨request, none, true, some e, none, none⟩))) ∧
    (is_ajax request = false →
      catch_ajax_exceptions func debug request = .reraised e) := by
  have hj : firstJunkObj
      (excContent (initState ⟨request, none, true, some e, none, none⟩) e) =
      none := by
    simp [excContent, initState, firstJunkObj, JValue.firstJunk, firstJunkList]
  have hresp : ajaxExceptionResponse debug request e = .ok
      ([("success", .bool false), ("details", .obj []), ("messages", .arr []),
        ("exception", if debug then .str (excMessage e) else .bool true)],
       initState ⟨request, none, true, some e, none, none⟩) := by
    unfold ajaxExceptionResponse jsonResponse
    simp only [build_json]
    unfold build_json_exc
    rw [encode_ok_of_nojunk _ _ hj]
    cases debug <;> simp [gateException, excContent, initState]
  constructor
  · intro ha
    simp [catch_ajax_exceptions, hf, ha, hresp]
  · intro ha
    simp [catch_ajax_exceptions, hf, ha]

/-- C6, witness: a raising handler behind the decorator, once with an AJAX
request (JSON envelope with the derived exception string) and once with a
plain request (exception re-raised). -/
theorem C6_witness :
    c6func testRequest = .error c6exc ∧ is_ajax testRequest = true ∧
    is_ajax plainRequest = false ∧
    catch_ajax_exceptions c6func true testRequest = .jsonOut (.ok
      ([("success", .bool false), ("details", .obj []), ("messages", .arr []),
        ("exception", .str "Internal error: x")],
       initState ⟨testRequest, none, true, some c6exc, none, none⟩)) ∧
    catch_ajax_exceptions c6func true plainRequest = .reraised c6exc :=
  ⟨rfl, rfl, rfl,
   (C6_decorator_behavior c6func true testRequest c6exc rfl).1 rfl,
   (C6_decorator_behavior c6func true plainRequest c6exc rfl).2 rfl⟩

/-! ## Claim C5 -/

/-- C5, evidence of the code bug: for the same AJAX request and exception,
the decorator returns a well-formed JSON envelope, but the middleware hook's
`JSONResponse(exception=exception)` call omits the constructor's required
`request` argument, so `process_exception` raises `TypeError` instead of
producing any envelope — the two integration points cannot produce
byte-identical envelopes because one of them crashes. -/
theorem C5_middleware_missing_request :
    process_exception testRequest c5exc = .typeError ∧
    catch_ajax_exceptions c5func true testRequest = .jsonOut (.ok
      (c5Env, initState ⟨testRequest, none, true, some c5exc, none, none⟩)) :=
  ⟨rfl, rfl⟩

/-! ## Claim C8: lemmas about the form-error collector -/

theorem aset_of_alookup {α : Type} (l : List (String × α)) (k : String)
    (v : α) (h : alookup l k = some v) : aset l k v = l := by
  induction l with
  | nil => simp [alookup] at h
  | cons p ps ih =>
    by_cases hp : p.1 = k
    · simp [alookup, hp] at h
      have hkv : (k, v) = p := by rw [← hp, ← h]
      simp [aset, hp, hkv]
    · simp [alookup, hp] at h
      simp [aset, hp, ih h]

theorem get_form_errors_cons (f : Form) (fs : List Form) (s : Bool)
    (d : Envelope) :
    get_form_errors (f :: fs) s d =
      get_form_errors fs
        (f.errors.foldl
          (fun acc2 fe => stepEntry acc2 (resolveField f fe.1, fe.2)) (s, d)).1
        (f.errors.foldl
          (fun acc2 fe => stepEntry acc2 (resolveField f fe.1, fe.2)) (s, d)).2 :=
  rfl

theorem get_form_errors_eq (forms : List Form) : ∀ (s : Bool) (d : Envelope),
    get_form_errors forms s d = (flatEntries forms).foldl stepEntry (s, d) := by
  induction forms with
  | nil => intro s d; rfl
  | cons f fs ih =>
    intro s d
    rw [get_form_errors_cons, ih]
    rw [show flatEntries (f :: fs) =
      f.errors.map (fun fe => (resolveField f fe.1, fe.2)) ++ flatEntries fs
      from rfl]
    rw [List.foldl_append, List.foldl_map]

theorem stepEntry_skip (s : Bool) (d : Envelope) (e : String × List String)
    (h : e.1 = "") : stepEntry (s, d) e = (false, d) := by
  simp [stepEntry, h]

theorem stepEntry_emit (s : Bool) (d : Envelope) (e : String × List String)
    (h : ¬ e.1 = "") :
    stepEntry (s, d) e = (false, applyFieldErrors d e.1 e.2) := by
  simp [stepEntry, h]

theorem applyFieldErrors_present (d : Envelope) (field : String)
    (errs : List String) (fe : List (String × JValue))
    (hd : alookup d "form_errors" = some (.obj fe)) :
    applyFieldErrors d field errs =
      aset d "form_errors" (.obj (extendFormErrors fe field errs)) := by
  simp only [applyFieldErrors, hd]

theorem applyFieldErrors_absent (d : Envelope) (field : String)
    (errs : List String) (hd : alookup d "form_errors" = none) :
    applyFieldErrors d field errs =
      aset d "form_errors" (.obj (extendFormErrors [] field errs)) := by
  simp only [applyFieldErrors, hd]

theorem emitFold_cons_skip (fe : List (String × JValue))
    (e : String × List String) (l : List (String × List String))
    (h : e.1 = "") : emitFold fe (e :: l) = emitFold fe l := by
  simp [emitFold, h]

theorem emitFold_cons_emit (fe : List (String × JValue))
    (e : String × List String) (l : List (String × List String))
    (h : ¬ e.1 = "") :
    emitFold fe (e :: l) = emitFold (extendFormErrors fe e.1 e.2) l := by
  simp [emitFold, h]

theorem foldl_step_present (l : List (String × List String)) :
    ∀ (s : Bool) (d : Envelope) (fe : List (String × JValue)),
    alookup d "form_errors" = some (.obj fe) →
    l.foldl stepEntry (s, d) =
      (if l.isEmpty then s else false,
       aset d "form_errors" (.obj (emitFold fe l))) := by
  induction l with
  | nil =>
    intro s d fe hd
    simp [emitFold, aset_of_alookup d "form_errors" _ hd]
  | cons e l ih =>
    intro s d fe hd
    rw [List.foldl_cons]
    by_cases he : e.1 = ""
    · rw [stepEntry_skip _ _ _ he, ih false d fe hd, emitFold_cons_skip _ _ _ he]
      simp
    · rw [stepEntry_emit _ _ _ he, applyFieldErrors_present d e.1 e.2 fe hd,
        ih false _ (extendFormErrors fe e.1 e.2) (alookup_aset_self _ _ _),
        aset_aset, emitFold_cons_emit _ _ _ he]
      simp

theorem refErrors_cons (e : String × List String)
    (l : List (String × List String)) (k : String) :
    refErrors (e :: l) k =
      (if e.1 = k then e.2 ++ refErrors l k else refErrors l k) := by
  simp [refErrors]

theorem hasEntry_cons (e : String × List String)
    (l : List (String × List String)) (k : String) :
    hasEntry (e :: l) k = (decide (e.1 = k) || hasEntry l k) := by
  simp [hasEntry]

theorem anyEmit_cons (e : String × List String)
    (l : List (String × List String)) :
    (e :: l).any (fun e => e.1 ≠ "") =
      (decide (¬ e.1 = "") || l.any (fun e => e.1 ≠ "")) := by
  simp

theorem foldl_step_absent (l : List (String × List String)) :
    ∀ (s : Bool) (d : Envelope),
    alookup d "form_errors" = none →
    l.foldl stepEntry (s, d) =
      (if l.isEmpty then s else false,
       if l.any (fun e => e.1 ≠ "") then
         aset d "form_errors" (.obj (emitFold [] l))
       else d) := by
  induction l with
  | nil => intro s d hd; simp
  | cons e l ih =>
    intro s d hd
    rw [List.foldl_cons]
    by_cases he : e.1 = ""
    · have hf : (decide (¬ e.1 = "") : Bool) = false := by simp [he]
      rw [stepEntry_skip _ _ _ he, ih false d hd, emitFold_cons_skip _ _ _ he,
        anyEmit_cons, hf, Bool.false_or]
      simp
    · have ht : (decide (¬ e.1 = "") : Bool) = true := by simp [he]
      rw [stepEntry_emit _ _ _ he, applyFieldErrors_absent d e.1 e.2 hd,
        foldl_step_present l false _ (extendFormErrors [] e.1 e.2)
          (alookup_aset_self _ _ _),
        aset_aset, emitFold_cons_emit _ _ _ he,
        anyEmit_cons, ht, Bool.true_or]
      simp

theorem wfSlot_nil : wfSlot [] := by
  intro k v h
  simp [alookup] at h

theorem alookup_extend_ne (fe : List (String × JValue)) (field : String)
    (errs : List String) (k : String) (h : k ≠ field) :
    alookup (extendFormErrors fe field errs) k = alookup fe k := by
  unfold extendFormErrors
  cases halk : alookup fe field with
  | none => exact alookup_aset_ne _ _ _ _ h
  | some v =>
    cases v with
    | arr xs => exact alookup_aset_ne _ _ _ _ h
    | null => rfl
    | bool b => rfl
    | str s => rfl
    | obj fs => rfl
    | junk t => rfl

theorem wfSlot_extend (fe : List (String × JValue)) (field : String)
    (errs : List String) (hwf : wfSlot fe) :
    wfSlot (extendFormErrors fe field errs) := by
  intro k v h
  by_cases hk : k = field
  · subst hk
    cases halk : alookup fe k with
    | none =>
      simp only [extendFormErrors, halk] at h
      rw [alookup_aset_self] at h
      exact ⟨errs.map JValue.str, (Option.some.inj h).symm⟩
    | some v0 =>
      rcases hwf k v0 halk with ⟨xs, rfl⟩
      simp only [extendFormErrors, halk] at h
      rw [alookup_aset_self] at h
      exact ⟨xs ++ errs.map JValue.str, (Option.some.inj h).symm⟩
  · rw [alookup_extend_ne _ _ _ _ hk] at h
    exact hwf k v h

theorem emitFold_lookup (l : List (String × List String)) :
    ∀ (fe : List (String × JValue)) (k : String), k ≠ "" → wfSlot fe →
    alookup (emitFold fe l) k =
      (match alookup fe k with
       | some (JValue.arr xs) =>
         some (.arr (xs ++ (refErrors l k).map JValue.str))
       | some v => some v
       | none =>
         if hasEntry l k then some (.arr ((refErrors l k).map JValue.str))
         else none) := by
  induction l with
  | nil =>
    intro fe k _ hwf
    cases halk : alookup fe k with
    | none => simp [emitFold, halk, hasEntry, refErrors]
    | some v =>
      rcases hwf k v halk with ⟨xs, rfl⟩
      simp [emitFold, halk, refErrors]
  | cons e l ih =>
    intro fe k hk hwf
    by_cases he : e.1 = ""
    · have hek : ¬ e.1 = k := by rw [he]; exact fun hh => hk hh.symm
      have hf : (decide (e.1 = k) : Bool) = false := by simp [hek]
      rw [emitFold_cons_skip _ _ _ he, ih fe k hk hwf, refErrors_cons,
        if_neg hek, hasEntry_cons, hf, Bool.false_or]
    · by_cases hek : e.1 = k
      · subst hek
        have ht : (decide (e.1 = e.1) : Bool) = true := by simp
        rw [emitFold_cons_emit _ _ _ he,
          ih (extendFormErrors fe e.1 e.2) e.1 hk (wfSlot_extend _ _ _ hwf),
          refErrors_cons, if_pos rfl, hasEntry_cons, ht, Bool.true_or]
        cases halk : alookup fe e.1 with
        | none =>
          have hl : alookup (extendFormErrors fe e.1 e.2) e.1 =
              some (.arr (e.2.map JValue.str)) := by
            simp only [extendFormErrors, halk]
            exact alookup_aset_self _ _ _
          simp only [hl]
          simp
        | some v =>
          rcases hwf e.1 v halk with ⟨xs, rfl⟩
          have hl : alookup (extendFormErrors fe e.1 e.2) e.1 =
              some (.arr (xs ++ e.2.map JValue.str)) := by
            simp only [extendFormErrors, halk]
            exact alookup_aset_self _ _ _
          simp only [hl]
          simp
      · have hf : (decide (e.1 = k) : Bool) = false := by simp [hek]
        rw [emitFold_cons_emit _ _ _ he,
          ih (extendFormErrors fe e.1 e.2) k hk (wfSlot_extend _ _ _ hwf),
          alookup_extend_ne _ _ _ _ (fun hh => hek hh.symm),
          refErrors_cons, if_neg hek, hasEntry_cons, hf, Bool.false_or]

theorem mem_flatEntries (forms : List Form) (e : String × List String) :
    e ∈ flatEntries forms ↔
      ∃ form ∈ forms, ∃ fe ∈ form.errors,
        e = (resolveField form fe.1, fe.2) := by
  induction forms with
  | nil => simp [flatEntries]
  | cons f fs ih =>
    simp only [flatEntries, List.mem_append, List.mem_map, ih, List.mem_cons]
    constructor
    · rintro (⟨fe, hfe, rfl⟩ | ⟨form, hf, fe, hfe, rfl⟩)
      · exact ⟨f, Or.inl rfl, fe, hfe, rfl⟩
      · exact ⟨form, Or.inr hf, fe, hfe, rfl⟩
    · rintro ⟨form, hf | hf, fe, hfe, rfl⟩
      · subst hf; exact Or.inl ⟨fe, hfe, rfl⟩
      · exact Or.inr ⟨form, hf, fe, hfe, rfl⟩

/-- C8: for every list of forms handed to the collector, starting from a
details mapping carrying no `form_errors` key and with Django's guarantee
that every error list is non-empty: any error entry flips `success` to
`false`; all other detail keys are untouched; the `form_errors` key appears
exactly when some entry resolved to a truthy id — equivalently, by the last
conjunct, when at least one error was emitted for a form-wide (`__all__`) or
rendered field — and for every truthy id it holds exactly the concatenation,
in form-iteration order, of all error lists that resolved to that id (append
semantics across forms and repeated fields). -/
theorem C8_form_error_collector (forms : List Form) (s : Bool) (d : Envelope)
    (hd : alookup d "form_errors" = none)
    (hwfe : ∀ form ∈ forms, ∀ fe ∈ form.errors, fe.2 ≠ []) :
    (get_form_errors forms s d).1 =
      (if (flatEntries forms).isEmpty then s else false) ∧
    (∀ k, k ≠ "form_errors" →
      alookup (get_form_errors forms s d).2 k = alookup d k) ∧
    ((flatEntries forms).any (fun e => e.1 ≠ "") = false →
      alookup (get_form_errors forms s d).2 "form_errors" = none) ∧
    ((flatEntries forms).any (fun e => e.1 ≠ "") = true →
      ∃ m, alookup (get_form_errors forms s d).2 "form_errors" =
          some (.obj m) ∧
        ∀ k, k ≠ "" → alookup m k =
          (if hasEntry (flatEntries forms) k then
            some (.arr ((refErrors (flatEntries forms) k).map JValue.str))
          else none)) ∧
    ((flatEntries forms).any (fun e => e.1 ≠ "") = true ↔
      ∃ form ∈ forms, ∃ fe ∈ form.errors,
        resolveField form fe.1 ≠ "" ∧ fe.2 ≠ []) := by
  have key := foldl_step_absent (flatEntries forms) s d hd
  rw [get_form_errors_eq, key]
  refine ⟨rfl, ?_, ?_, ?_, ?_⟩
  · intro k hk
    by_cases ha : (flatEntries forms).any (fun e => e.1 ≠ "")
    · simp only [ha, if_true]
      exact alookup_aset_ne _ _ _ _ hk
    · simp only [Bool.not_eq_true] at ha
      simp only [ha]
      simp
  · intro ha
    simp only [ha]
    simp [hd]
  · intro ha
    refine ⟨emitFold [] (flatEntries forms), ?_, ?_⟩
    · simp only [ha]
      simp [alookup_aset_self]
    · intro k hk
      rw [emitFold_lookup (flatEntries forms) [] k hk wfSlot_nil]
      simp [alookup]
  · rw [List.any_eq_true]
    constructor
    · rintro ⟨e, hmem, hne⟩
      rw [mem_flatEntries] at hmem
      rcases hmem with ⟨form, hf, fe, hfe, rfl⟩
      refine ⟨form, hf, fe, hfe, ?_, hwfe form hf fe hfe⟩
      simpa using hne
    · rintro ⟨form, hf, fe, hfe, hne, _⟩
      refine ⟨(resolveField form fe.1, fe.2), ?_, by simpa using hne⟩
      rw [mem_flatEntries]
      exact ⟨form, hf, fe, hfe, rfl⟩

/-- C8, witness: two forms sharing the resolved id `id_name` (errors are
appended across forms), a form-wide `__all__` error kept under the literal
sentinel, a field resolving to an empty id contributing nothing, `success`
flipped to `false`, and the pre-existing details key untouched. -/
theorem C8_witness :
    alookup c8d "form_errors" = none ∧
    (get_form_errors c8forms true c8d).2 =
      [("x", .str "y"),
       ("form_errors", .obj
         [("__all__", .arr [.str "bad combo"]),
          ("id_name", .arr [.str "required", .str "too short"])])] ∧
    (get_form_errors c8forms true c8d).1 = false ∧
    (∀ k, k ≠ "form_errors" →
      alookup (get_form_errors c8forms true c8d).2 k = alookup c8d k) :=
  ⟨rfl, rfl,
   ((C8_form_error_collector c8forms true c8d rfl (by decide)).1).trans rfl,
   (C8_form_error_collector c8forms true c8d rfl (by decide)).2.1⟩

end jsonit
